import Mathlib

/-!
Shallow embedding of the BezierTS library (src/src/index.ts): the
`BezierCurve` animator class and its static Bezier evaluators, together
with a small-step trace semantics for the play/stop/tick lifecycle.

Modelling conventions:
* Roblox `Vector3` is a record of three scalars; Roblox numbers are
  modelled as exact rationals (`ℚ`), i.e. ideal real arithmetic on
  representable values — floating-point rounding is outside the model.
* The `RBXScriptConnection` held in `this.connection` is modelled by a
  `Bool` recording whether a live Heartbeat subscription exists.
* The body of the Heartbeat callback installed by `play()` is `tick`,
  split into the three phases the source performs in order: advance `t`,
  select an evaluator and update `position`, then the end-of-run check.
  Observable effects of a tick (disconnecting the subscription, invoking
  the completion callback) are returned as an ordered list of `Eff`
  events, in source order.
* `Eff.invoke b` records that the callback supplied to `play()` would be
  invoked with argument `b` (if the caller supplied one).
-/

namespace BezierTS

/-- Roblox `Vector3`, with exact rational coordinates. -/
structure Vector3 where
  x : ℚ
  y : ℚ
  z : ℚ
deriving DecidableEq, Repr

/-- `Vector3.mul`: scalar multiplication `v.mul(s)`. -/
def Vector3.mul (v : Vector3) (s : ℚ) : Vector3 :=
  ⟨v.x * s, v.y * s, v.z * s⟩

/-- `Vector3.add`: componentwise addition `a.add(b)`. -/
def Vector3.add (a b : Vector3) : Vector3 :=
  ⟨a.x + b.x, a.y + b.y, a.z + b.z⟩

/-- `Vector3.zero`. -/
def Vector3.zero : Vector3 := ⟨0, 0, 0⟩

/-- Lua `math.clamp(x, lo, hi)`. -/
def clamp (x lo hi : ℚ) : ℚ := min (max x lo) hi

/-- The `BezierPositions` value class (src/src/index.ts lines 127-145). -/
structure BezierPositions where
  p0 : Vector3
  p1 : Vector3
  p2 : Option Vector3
  p3 : Option Vector3
deriving DecidableEq, Repr

/-- The mutable state of a `BezierCurve` animator (fields of the class,
src/src/index.ts lines 3-12). `connection` is `true` exactly when a
Heartbeat subscription handle is held; `wantToStop` is the stop latch. -/
structure BezierCurve where
  p0 : Vector3
  p1 : Vector3
  p2 : Option Vector3
  p3 : Option Vector3
  t : ℚ
  duration : ℚ
  position : Vector3
  connection : Bool
  wantToStop : Bool
deriving DecidableEq, Repr

/-- Static `BezierCurve.linearBezier` (src line 103-105). -/
def BezierCurve.linearBezier (t : ℚ) (p0 p1 : Vector3) : Vector3 :=
  (p0.mul (1 - t)).add (p1.mul t)

/-- Static `BezierCurve.quadraticBezier` (src lines 88-93). -/
def BezierCurve.quadraticBezier (t : ℚ) (p0 p1 p2 : Vector3) : Vector3 :=
  let oneMinusT := 1 - t
  ((p0.mul (oneMinusT * oneMinusT)).add (p1.mul (2 * oneMinusT * t))).add
    (p2.mul (t * t))

/-- Static `BezierCurve.cubicBezier` (src lines 116-123). -/
def BezierCurve.cubicBezier (t : ℚ) (p0 p1 p2 p3 : Vector3) : Vector3 :=
  let oneMinusT := 1 - t
  (((p0.mul (oneMinusT ^ 3)).add (p1.mul (3 * oneMinusT ^ 2 * t))).add
      (p2.mul (3 * oneMinusT * t ^ 2))).add
    (p3.mul (t ^ 3))

/-- The `BezierCurve` constructor (src lines 20-30): copies the four
control points, stores the duration and initialises `position := p0`.
The field initialisers give `t = 0`, no connection, `wantToStop = false`. -/
def BezierCurve.new (duration : ℚ) (positions : BezierPositions) : BezierCurve :=
  { p0 := positions.p0
    p1 := positions.p1
    p2 := positions.p2
    p3 := positions.p3
    t := 0
    duration := duration
    position := positions.p0
    connection := false
    wantToStop := false }

/-- `play()` entry (src lines 37-41): returns unchanged if a connection
exists; otherwise sets `t := 0` and connects to Heartbeat. Note that the
source does NOT reset `wantToStop` here. -/
def BezierCurve.play (c : BezierCurve) : BezierCurve :=
  if c.connection then c else { c with t := 0, connection := true }

/-- `stop()` (src lines 76-78): sets the latch, nothing else. -/
def BezierCurve.stop (c : BezierCurve) : BezierCurve :=
  { c with wantToStop := true }

/-- An observable effect performed inside one Heartbeat tick, in source
order: releasing the subscription, and invoking the completion callback
(when the caller supplied one) with its `endedNaturally` argument. -/
inductive Eff where
  | disconnect
  | invoke (endedNaturally : Bool)
deriving DecidableEq, Repr

/-- Phase 1 of the Heartbeat callback (src line 42):
`this.t = math.clamp(this.t + dt / this.duration, 0, 1)`. -/
def BezierCurve.tickAdvance (c : BezierCurve) (dt : ℚ) : BezierCurve :=
  { c with t := clamp (c.t + dt / c.duration) 0 1 }

/-- Phase 2 of the Heartbeat callback (src lines 44-57): the three
sequential conditionals selecting an evaluator from the control points
present, in source order (linear, cubic, quadratic); when `p2` is absent
and `p3` present none fires and `position` is left as it was. -/
def BezierCurve.updatePosition (c : BezierCurve) : BezierCurve :=
  let a :=
    match c.p2, c.p3 with
    | none, none => { c with position := BezierCurve.linearBezier c.t c.p0 c.p1 }
    | _, _ => c
  let b :=
    match a.p2, a.p3 with
    | some q2, some q3 =>
        { a with position := BezierCurve.cubicBezier a.t a.p0 a.p1 q2 q3 }
    | _, _ => a
  match b.p2, b.p3 with
  | some q2, none =>
      { b with position := BezierCurve.quadraticBezier b.t b.p0 b.p1 q2 }
  | _, _ => b

/-- Phase 3 of the Heartbeat callback (src lines 59-68): if `t ≥ 1` or the
stop latch is set, disconnect (and drop the handle) and then invoke the
callback with `false` when stopping, `true` otherwise. The latch itself is
left as it is. -/
def BezierCurve.tickFinish (c : BezierCurve) : BezierCurve × List Eff :=
  if 1 ≤ c.t ∨ c.wantToStop = true then
    ({ c with connection := false }, [Eff.disconnect, Eff.invoke (!c.wantToStop)])
  else
    (c, [])

/-- The whole Heartbeat callback body installed by `play()`
(src lines 42-68), as the source sequences it. -/
def BezierCurve.tick (c : BezierCurve) (dt : ℚ) : BezierCurve × List Eff :=
  BezierCurve.tickFinish (BezierCurve.updatePosition (c.tickAdvance dt))

/-- The value `tick` stores into `t` (the clamped advance). -/
def tickT (c : BezierCurve) (dt : ℚ) : ℚ :=
  clamp (c.t + dt / c.duration) 0 1

/-- An action the host can perform on an animator: call `play()` (the
callback argument is implicit), call `stop()`, or deliver a Heartbeat
tick with elapsed delta `dt`. -/
inductive Act where
  | play
  | stop
  | tick (dt : ℚ)
deriving DecidableEq, Repr

/-- One action applied to an animator. A Heartbeat tick reaches the
callback only while the subscription exists; a disconnected animator
ignores ticks (its closure is gone). -/
def BezierCurve.step (c : BezierCurve) : Act → BezierCurve × List Eff
  | Act.play => (c.play, [])
  | Act.stop => (c.stop, [])
  | Act.tick dt => if c.connection = true then c.tick dt else (c, [])

/-- A sequence of actions applied in order, collecting the effects. -/
def BezierCurve.run (c : BezierCurve) : List Act → BezierCurve × List Eff
  | [] => (c, [])
  | a :: rest =>
    let s := c.step a
    let r := s.1.run rest
    (r.1, s.2 ++ r.2)

/-- The callback invocations among a list of effects, with their
`endedNaturally` arguments. -/
def invokes (es : List Eff) : List Bool :=
  es.filterMap fun e =>
    match e with
    | Eff.invoke b => some b
    | Eff.disconnect => none

/-- A concrete `BezierPositions` (the README's linear example). -/
def demoPositions : BezierPositions :=
  ⟨⟨0, 0, 0⟩, ⟨0, 50, 0⟩, none, none⟩

/-- A concrete malformed `BezierPositions`: `p3` present, `p2` absent. -/
def degeneratePositions : BezierPositions :=
  ⟨⟨0, 0, 0⟩, ⟨0, 50, 0⟩, none, some ⟨1, 2, 3⟩⟩

/-- The spec's linear Bernstein blend on one coordinate. -/
def blendLinear (t a b : ℚ) : ℚ := a * (1 - t) + b * t

/-- The spec's quadratic Bernstein blend on one coordinate. -/
def blendQuadratic (t a b c : ℚ) : ℚ :=
  a * (1 - t) ^ 2 + b * (2 * (1 - t) * t) + c * t ^ 2

/-- The spec's cubic Bernstein blend on one coordinate. -/
def blendCubic (t a b c d : ℚ) : ℚ :=
  a * (1 - t) ^ 3 + b * (3 * (1 - t) ^ 2 * t) + c * (3 * (1 - t) * t ^ 2) + d * t ^ 3

/-- The blend `p0·(1−t) + p1·t` of the spec, stated componentwise,
independently of the source's `Vector3` operations. -/
def specLinearBlend (t : ℚ) (p0 p1 : Vector3) : Vector3 :=
  ⟨blendLinear t p0.x p1.x, blendLinear t p0.y p1.y, blendLinear t p0.z p1.z⟩

/-- The blend `p0·(1−t)² + p1·2(1−t)t + p2·t²` of the spec, componentwise. -/
def specQuadraticBlend (t : ℚ) (p0 p1 p2 : Vector3) : Vector3 :=
  ⟨blendQuadratic t p0.x p1.x p2.x, blendQuadratic t p0.y p1.y p2.y,
    blendQuadratic t p0.z p1.z p2.z⟩

/-- The blend `p0·(1−t)³ + p1·3(1−t)²t + p2·3(1−t)t² + p3·t³` of the spec,
componentwise. -/
def specCubicBlend (t : ℚ) (p0 p1 p2 p3 : Vector3) : Vector3 :=
  ⟨blendCubic t p0.x p1.x p2.x p3.x, blendCubic t p0.y p1.y p2.y p3.y,
    blendCubic t p0.z p1.z p2.z p3.z⟩

/-! ### Helper lemmas about the tick phases -/

theorem clamp01_bounds (x : ℚ) : 0 ≤ clamp x 0 1 ∧ clamp x 0 1 ≤ 1 := by
  unfold clamp
  exact ⟨le_min (le_max_right x 0) zero_le_one, min_le_right _ _⟩

@[simp] theorem tickAdvance_t (c : BezierCurve) (dt : ℚ) :
    (c.tickAdvance dt).t = clamp (c.t + dt / c.duration) 0 1 := rfl

@[simp] theorem tickAdvance_p0 (c : BezierCurve) (dt : ℚ) :
    (c.tickAdvance dt).p0 = c.p0 := rfl

@[simp] theorem tickAdvance_p1 (c : BezierCurve) (dt : ℚ) :
    (c.tickAdvance dt).p1 = c.p1 := rfl

@[simp] theorem tickAdvance_p2 (c : BezierCurve) (dt : ℚ) :
    (c.tickAdvance dt).p2 = c.p2 := rfl

@[simp] theorem tickAdvance_p3 (c : BezierCurve) (dt : ℚ) :
    (c.tickAdvance dt).p3 = c.p3 := rfl

@[simp] theorem tickAdvance_position (c : BezierCurve) (dt : ℚ) :
    (c.tickAdvance dt).position = c.position := rfl

@[simp] theorem tickAdvance_connection (c : BezierCurve) (dt : ℚ) :
    (c.tickAdvance dt).connection = c.connection := rfl

@[simp] theorem tickAdvance_wantToStop (c : BezierCurve) (dt : ℚ) :
    (c.tickAdvance dt).wantToStop = c.wantToStop := rfl

@[simp] theorem tickAdvance_duration (c : BezierCurve) (dt : ℚ) :
    (c.tickAdvance dt).duration = c.duration := rfl

@[simp] theorem updatePosition_t (c : BezierCurve) : c.updatePosition.t = c.t := by
  obtain ⟨p0, p1, p2, p3, t, d, pos, conn, ws⟩ := c
  cases p2 <;> cases p3 <;> rfl

@[simp] theorem updatePosition_p0 (c : BezierCurve) : c.updatePosition.p0 = c.p0 := by
  obtain ⟨p0, p1, p2, p3, t, d, pos, conn, ws⟩ := c
  cases p2 <;> cases p3 <;> rfl

@[simp] theorem updatePosition_p1 (c : BezierCurve) : c.updatePosition.p1 = c.p1 := by
  obtain ⟨p0, p1, p2, p3, t, d, pos, conn, ws⟩ := c
  cases p2 <;> cases p3 <;> rfl

@[simp] theorem updatePosition_p2 (c : BezierCurve) : c.updatePosition.p2 = c.p2 := by
  obtain ⟨p0, p1, p2, p3, t, d, pos, conn, ws⟩ := c
  cases p2 <;> cases p3 <;> rfl

@[simp] theorem updatePosition_p3 (c : BezierCurve) : c.updatePosition.p3 = c.p3 := by
  obtain ⟨p0, p1, p2, p3, t, d, pos, conn, ws⟩ := c
  cases p2 <;> cases p3 <;> rfl

@[simp] theorem updatePosition_connection (c : BezierCurve) :
    c.updatePosition.connection = c.connection := by
  obtain ⟨p0, p1, p2, p3, t, d, pos, conn, ws⟩ := c
  cases p2 <;> cases p3 <;> rfl

@[simp] theorem updatePosition_wantToStop (c : BezierCurve) :
    c.updatePosition.wantToStop = c.wantToStop := by
  obtain ⟨p0, p1, p2, p3, t, d, pos, conn, ws⟩ := c
  cases p2 <;> cases p3 <;> rfl

@[simp] theorem updatePosition_duration (c : BezierCurve) :
    c.updatePosition.duration = c.duration := by
  obtain ⟨p0, p1, p2, p3, t, d, pos, conn, ws⟩ := c
  cases p2 <;> cases p3 <;> rfl

/-- What the three sequential conditionals leave in `position`. -/
theorem updatePosition_position (c : BezierCurve) :
    c.updatePosition.position =
      match c.p2, c.p3 with
      | none, none => BezierCurve.linearBezier c.t c.p0 c.p1
      | some q2, none => BezierCurve.quadraticBezier c.t c.p0 c.p1 q2
      | some q2, some q3 => BezierCurve.cubicBezier c.t c.p0 c.p1 q2 q3
      | none, some _ => c.position := by
  obtain ⟨p0, p1, p2, p3, t, d, pos, conn, ws⟩ := c
  cases p2 <;> cases p3 <;> rfl

theorem tickFinish_of_end (c : BezierCurve) (h : 1 ≤ c.t ∨ c.wantToStop = true) :
    c.tickFinish =
      ({ c with connection := false }, [Eff.disconnect, Eff.invoke (!c.wantToStop)]) := by
  unfold BezierCurve.tickFinish
  rw [if_pos h]

theorem tickFinish_of_not_end (c : BezierCurve) (h : ¬(1 ≤ c.t ∨ c.wantToStop = true)) :
    c.tickFinish = (c, []) := by
  unfold BezierCurve.tickFinish
  rw [if_neg h]

@[simp] theorem tickFinish_fst_t (c : BezierCurve) : c.tickFinish.1.t = c.t := by
  unfold BezierCurve.tickFinish
  split <;> rfl

@[simp] theorem tickFinish_fst_position (c : BezierCurve) :
    c.tickFinish.1.position = c.position := by
  unfold BezierCurve.tickFinish
  split <;> rfl

@[simp] theorem tickFinish_fst_p2 (c : BezierCurve) : c.tickFinish.1.p2 = c.p2 := by
  unfold BezierCurve.tickFinish
  split <;> rfl

@[simp] theorem tickFinish_fst_p3 (c : BezierCurve) : c.tickFinish.1.p3 = c.p3 := by
  unfold BezierCurve.tickFinish
  split <;> rfl

@[simp] theorem tickFinish_fst_wantToStop (c : BezierCurve) :
    c.tickFinish.1.wantToStop = c.wantToStop := by
  unfold BezierCurve.tickFinish
  split <;> rfl

/-- `t` after a tick is the clamped advance, whatever else happens. -/
theorem tick_fst_t (c : BezierCurve) (dt : ℚ) :
    (c.tick dt).1.t = clamp (c.t + dt / c.duration) 0 1 := by
  unfold BezierCurve.tick
  simp

/-- `position` after a tick is whatever the selection phase computed at the
advanced `t`; the end-of-run check does not touch it. -/
theorem tick_fst_position (c : BezierCurve) (dt : ℚ) :
    (c.tick dt).1.position = (BezierCurve.updatePosition (c.tickAdvance dt)).position := by
  unfold BezierCurve.tick
  simp

@[simp] theorem tick_fst_p2 (c : BezierCurve) (dt : ℚ) : (c.tick dt).1.p2 = c.p2 := by
  unfold BezierCurve.tick
  simp

@[simp] theorem tick_fst_p3 (c : BezierCurve) (dt : ℚ) : (c.tick dt).1.p3 = c.p3 := by
  unfold BezierCurve.tick
  simp

@[simp] theorem tick_fst_wantToStop (c : BezierCurve) (dt : ℚ) :
    (c.tick dt).1.wantToStop = c.wantToStop := by
  unfold BezierCurve.tick
  simp

/-- A tick whose advanced `t` reaches 1, or that observes the stop latch,
releases the subscription and emits `disconnect` then `invoke (!latch)`. -/
theorem tick_end_case (c : BezierCurve) (dt : ℚ)
    (h : 1 ≤ tickT c dt ∨ c.wantToStop = true) :
    (c.tick dt).1.connection = false ∧
      (c.tick dt).2 = [Eff.disconnect, Eff.invoke (!c.wantToStop)] := by
  unfold BezierCurve.tick
  rw [tickFinish_of_end]
  · simp
  · simpa [tickT] using h

/-- A tick that reaches neither end condition emits nothing and keeps the
subscription. -/
theorem tick_not_end_case (c : BezierCurve) (dt : ℚ)
    (h : ¬(1 ≤ tickT c dt ∨ c.wantToStop = true)) :
    (c.tick dt).1.connection = c.connection ∧ (c.tick dt).2 = [] := by
  unfold BezierCurve.tick
  rw [tickFinish_of_not_end]
  · simp
  · simpa [tickT] using h

/-! ### Helper lemmas about play, stop and traces -/

@[simp] theorem play_position (c : BezierCurve) : c.play.position = c.position := by
  unfold BezierCurve.play
  split <;> rfl

@[simp] theorem play_p2 (c : BezierCurve) : c.play.p2 = c.p2 := by
  unfold BezierCurve.play
  split <;> rfl

@[simp] theorem play_p3 (c : BezierCurve) : c.play.p3 = c.p3 := by
  unfold BezierCurve.play
  split <;> rfl

theorem play_t_of_idle (c : BezierCurve) (h : c.connection = false) : c.play.t = 0 := by
  unfold BezierCurve.play
  rw [h]
  rfl

theorem run_cons (c : BezierCurve) (a : Act) (acts : List Act) :
    c.run (a :: acts) =
      (((c.step a).1.run acts).1, (c.step a).2 ++ ((c.step a).1.run acts).2) := rfl

@[simp] theorem invokes_append (es fs : List Eff) :
    invokes (es ++ fs) = invokes es ++ invokes fs := by
  simp [invokes]

/-- A disconnected animator delivered no further Heartbeat ticks stays
silent and disconnected for as long as `play()` is not called again. -/
theorem run_silent_when_disconnected (acts : List Act) :
    ∀ c : BezierCurve, Act.play ∉ acts → c.connection = false →
      (c.run acts).2 = [] ∧ (c.run acts).1.connection = false := by
  induction acts with
  | nil => exact fun c _ hc => ⟨rfl, hc⟩
  | cons a rest ih =>
    intro c hmem hc
    cases a with
    | play => exact absurd (List.mem_cons_self _ _) hmem
    | stop =>
      have hrest : Act.play ∉ rest := fun h => hmem (List.mem_cons_of_mem _ h)
      have h2 := ih c.stop hrest hc
      rw [run_cons]
      exact ⟨h2.1, h2.2⟩
    | tick dt =>
      have hrest : Act.play ∉ rest := fun h => hmem (List.mem_cons_of_mem _ h)
      have hstep : c.step (Act.tick dt) = (c, []) := by
        simp [BezierCurve.step, hc]
      rw [run_cons, hstep]
      have h2 := ih c hrest hc
      exact ⟨by simpa using h2.1, h2.2⟩

/-- Between one `play()` and the next, at most one callback invocation is
emitted: the tick that ends the run disconnects, and a disconnected
animator emits nothing more. -/
theorem run_invokes_le_one (acts : List Act) :
    ∀ c : BezierCurve, Act.play ∉ acts → c.connection = true →
      (invokes (c.run acts).2).length ≤ 1 := by
  induction acts with
  | nil =>
    intro c _ _
    simp [BezierCurve.run, invokes]
  | cons a rest ih =>
    intro c hmem hc
    have hrest : Act.play ∉ rest := fun h => hmem (List.mem_cons_of_mem _ h)
    cases a with
    | play => exact absurd (List.mem_cons_self _ _) hmem
    | stop =>
      have hconn : (BezierCurve.stop c).connection = true := hc
      have h2 := ih c.stop hrest hconn
      rw [run_cons]
      simpa [BezierCurve.step, invokes] using h2
    | tick dt =>
      have hstep : c.step (Act.tick dt) = c.tick dt := by
        simp [BezierCurve.step, hc]
      rw [run_cons, hstep]
      by_cases hend : 1 ≤ tickT c dt ∨ c.wantToStop = true
      · obtain ⟨hconn, heff⟩ := tick_end_case c dt hend
        have hsil := run_silent_when_disconnected rest (c.tick dt).1 hrest hconn
        rw [heff, hsil.1]
        simp [invokes, List.filterMap_cons]
      · obtain ⟨hconn, heff⟩ := tick_not_end_case c dt hend
        have h2 := ih (c.tick dt).1 hrest (hconn.trans hc)
        rw [heff]
        simpa using h2

/-- Every action preserves the control points, and — when `p2` is absent
while `p3` is present, so that no evaluator matches — also `position`. -/
theorem step_degenerate (c : BezierCurve) (a : Act) (h2 : c.p2 = none)
    (h3 : c.p3.isSome = true) :
    (c.step a).1.p2 = none ∧ (c.step a).1.p3.isSome = true ∧
      (c.step a).1.position = c.position := by
  cases a with
  | play =>
    refine ⟨?_, ?_, ?_⟩ <;> simp [BezierCurve.step, h2, h3]
  | stop =>
    exact ⟨h2, h3, rfl⟩
  | tick dt =>
    by_cases hc : c.connection = true
    · have hstep : c.step (Act.tick dt) = c.tick dt := by
        simp [BezierCurve.step, hc]
      rw [hstep]
      refine ⟨by simp [h2], by simp [h3], ?_⟩
      rw [tick_fst_position, updatePosition_position]
      obtain ⟨q3, hq3⟩ := Option.isSome_iff_exists.mp h3
      simp [h2, hq3]
    · have hstep : c.step (Act.tick dt) = (c, []) := by
        simp [BezierCurve.step, hc]
      rw [hstep]
      exact ⟨h2, h3, rfl⟩

/-- Over a whole trace, a malformed animator (`p3` without `p2`) never has
its `position` written. -/
theorem run_degenerate_position (acts : List Act) :
    ∀ c : BezierCurve, c.p2 = none → c.p3.isSome = true →
      (c.run acts).1.position = c.position := by
  induction acts with
  | nil => exact fun c _ _ => rfl
  | cons a rest ih =>
    intro c h2 h3
    obtain ⟨g2, g3, gpos⟩ := step_degenerate c a h2 h3
    rw [run_cons]
    calc ((c.step a).1.run rest).1.position
        = (c.step a).1.position := ih (c.step a).1 g2 g3
      _ = c.position := gpos

/-- `t` stays in `[0, 1]` along any trace from a state whose `t` is in
`[0, 1]`: ticks clamp, `play()` writes 0, `stop()` leaves `t` alone. -/
theorem run_t_bounds (acts : List Act) :
    ∀ c : BezierCurve, 0 ≤ c.t → c.t ≤ 1 →
      0 ≤ (c.run acts).1.t ∧ (c.run acts).1.t ≤ 1 := by
  induction acts with
  | nil => exact fun c h0 h1 => ⟨h0, h1⟩
  | cons a rest ih =>
    intro c h0 h1
    rw [run_cons]
    cases a with
    | play =>
      have hplay : (c.step Act.play).1 = c.play := rfl
      rw [hplay]
      by_cases hc : c.connection = true
      · have hpc : c.play = c := by simp [BezierCurve.play, hc]
        rw [hpc]
        exact ih c h0 h1
      · have hb : c.connection = false := by simpa using hc
        have ht0 : c.play.t = 0 := play_t_of_idle c hb
        exact ih c.play (le_of_eq ht0.symm) (by rw [ht0]; exact zero_le_one)
    | stop =>
      exact ih c.stop h0 h1
    | tick dt =>
      by_cases hc : c.connection = true
      · have hstep : c.step (Act.tick dt) = c.tick dt := by
          simp [BezierCurve.step, hc]
        rw [hstep]
        have ht := tick_fst_t c dt
        refine ih (c.tick dt).1 ?_ ?_
        · rw [ht]; exact (clamp01_bounds _).1
        · rw [ht]; exact (clamp01_bounds _).2
      · have hstep : c.step (Act.tick dt) = (c, []) := by
          simp [BezierCurve.step, hc]
        rw [hstep]
        exact ih c h0 h1

/-! ### The claims -/

/-- Claim C1 (code bug): `play()` is specified to clear the `stopRequested`
latch (`wantToStop`) when it starts a run, so that a stale `stop()` does
not terminate the new run; the source never resets `wantToStop`, so after
one `stop()` the next `play()` starts a run whose very first tick — here
with `t` advanced only to `1/10`, far from 1 — disconnects and reports
`endedNaturally = false`. -/
theorem stale_stop_latch_ends_next_run :
    ((BezierCurve.new 1 demoPositions).stop.play.wantToStop = true)
  ∧ tickT ((BezierCurve.new 1 demoPositions).stop.play) (1 / 10) < 1
  ∧ (((BezierCurve.new 1 demoPositions).stop.play.tick (1 / 10)).2
      = [Eff.disconnect, Eff.invoke false])
  ∧ (((BezierCurve.new 1 demoPositions).stop.play.tick (1 / 10)).1.connection = false) := by
  refine ⟨rfl, ?_, ?_, ?_⟩
  · norm_num [tickT, clamp, BezierCurve.new, BezierCurve.stop, BezierCurve.play,
      demoPositions]
  · simpa using
      (tick_end_case ((BezierCurve.new 1 demoPositions).stop.play) (1 / 10)
          (Or.inr rfl)).2
  · exact
      (tick_end_case ((BezierCurve.new 1 demoPositions).stop.play) (1 / 10)
          (Or.inr rfl)).1

/-- Claim C2: on the tick whose advanced `t` reaches 1 or that observes the
stop latch, a running animator disconnects before the callback fires, the
callback value is `!stopRequested`, a tick reaching neither condition emits
nothing, and over any continuation of the run (no further `play()`) at most
one callback invocation occurs. -/
theorem tick_ends_run_and_invokes_once (c : BezierCurve) (dt : ℚ)
    (hc : c.connection = true) :
    ((1 ≤ tickT c dt ∨ c.wantToStop = true) →
        (c.tick dt).1.connection = false
      ∧ (c.tick dt).2 = [Eff.disconnect, Eff.invoke (!c.wantToStop)])
  ∧ (¬(1 ≤ tickT c dt ∨ c.wantToStop = true) → (c.tick dt).2 = [])
  ∧ (∀ acts : List Act, Act.play ∉ acts →
      (invokes ((c.run acts).2)).length ≤ 1) := by
  refine ⟨fun h => tick_end_case c dt h, fun h => (tick_not_end_case c dt h).2, ?_⟩
  intro acts hacts
  exact run_invokes_le_one acts c hacts hc

/-- Witness for C2: a played-then-stopped animator is still running, and
its next tick disconnects and invokes the callback. -/
theorem tick_ends_run_and_invokes_once_witness :
    ((BezierCurve.new 1 demoPositions).play.stop.connection = true)
  ∧ (((BezierCurve.new 1 demoPositions).play.stop.tick (1 / 4)).1.connection = false
    ∧ ((BezierCurve.new 1 demoPositions).play.stop.tick (1 / 4)).2
        = [Eff.disconnect,
            Eff.invoke (!(BezierCurve.new 1 demoPositions).play.stop.wantToStop)]) :=
  ⟨rfl,
    (tick_ends_run_and_invokes_once (BezierCurve.new 1 demoPositions).play.stop
        (1 / 4) rfl).1 (Or.inr rfl)⟩

/-- Claim C3: every tick selects the evaluator from the control points
present at that moment — both absent: linear; `p2` only: quadratic; both
present: cubic; `p3` without `p2`: no evaluator matches and `position` is
left untouched that tick. -/
theorem tick_selects_evaluator_each_tick (c : BezierCurve) (dt : ℚ) :
    (c.p2 = none → c.p3 = none →
        (c.tick dt).1.position = BezierCurve.linearBezier (tickT c dt) c.p0 c.p1)
  ∧ (∀ q2 : Vector3, c.p2 = some q2 → c.p3 = none →
        (c.tick dt).1.position = BezierCurve.quadraticBezier (tickT c dt) c.p0 c.p1 q2)
  ∧ (∀ q2 q3 : Vector3, c.p2 = some q2 → c.p3 = some q3 →
        (c.tick dt).1.position = BezierCurve.cubicBezier (tickT c dt) c.p0 c.p1 q2 q3)
  ∧ (∀ q3 : Vector3, c.p2 = none → c.p3 = some q3 →
        (c.tick dt).1.position = c.position) := by
  refine ⟨fun h2 h3 => ?_, fun q2 h2 h3 => ?_, fun q2 q3 h2 h3 => ?_,
      fun q3 h2 h3 => ?_⟩ <;>
    rw [tick_fst_position, updatePosition_position] <;>
    simp [h2, h3, tickT]

/-- Claim C4: the three static evaluators compute exactly the spec's
Bernstein blends, stated componentwise. -/
theorem evaluators_compute_bernstein_blends (t : ℚ) (p0 p1 p2 p3 : Vector3) :
    BezierCurve.linearBezier t p0 p1 = specLinearBlend t p0 p1
  ∧ BezierCurve.quadraticBezier t p0 p1 p2 = specQuadraticBlend t p0 p1 p2
  ∧ BezierCurve.cubicBezier t p0 p1 p2 p3 = specCubicBlend t p0 p1 p2 p3 := by
  obtain ⟨x0, y0, z0⟩ := p0
  obtain ⟨x1, y1, z1⟩ := p1
  obtain ⟨x2, y2, z2⟩ := p2
  obtain ⟨x3, y3, z3⟩ := p3
  refine ⟨?_, ?_, ?_⟩ <;>
    simp only [BezierCurve.linearBezier, BezierCurve.quadraticBezier,
      BezierCurve.cubicBezier, specLinearBlend, specQuadraticBlend, specCubicBlend,
      blendLinear, blendQuadratic, blendCubic, Vector3.mul, Vector3.add,
      Vector3.mk.injEq] <;>
    and_intros <;>
    ring

/-- Claim C5: each evaluator interpolates its endpoints exactly: `t = 0`
gives `p0`, `t = 1` gives the last control point of its degree. -/
theorem evaluators_interpolate_endpoints (p0 p1 p2 p3 : Vector3) :
    BezierCurve.linearBezier 0 p0 p1 = p0
  ∧ BezierCurve.linearBezier 1 p0 p1 = p1
  ∧ BezierCurve.quadraticBezier 0 p0 p1 p2 = p0
  ∧ BezierCurve.quadraticBezier 1 p0 p1 p2 = p2
  ∧ BezierCurve.cubicBezier 0 p0 p1 p2 p3 = p0
  ∧ BezierCurve.cubicBezier 1 p0 p1 p2 p3 = p3 := by
  obtain ⟨x0, y0, z0⟩ := p0
  obtain ⟨x1, y1, z1⟩ := p1
  obtain ⟨x2, y2, z2⟩ := p2
  obtain ⟨x3, y3, z3⟩ := p3
  refine ⟨?_, ?_, ?_, ?_, ?_, ?_⟩ <;>
    simp only [BezierCurve.linearBezier, BezierCurve.quadraticBezier,
      BezierCurve.cubicBezier, Vector3.mul, Vector3.add, Vector3.mk.injEq] <;>
    and_intros <;>
    ring

/-- Claim C6: each tick stores `clamp(t + dt/duration, 0, 1)` into `t`;
along any trace of a constructed animator (with positive duration and
non-negative tick deltas) `t` stays in `[0, 1]`; and `play()` from Idle
starts the run at `t = 0`. -/
theorem t_bounded_and_reset (d : ℚ) (ps : BezierPositions) (acts : List Act)
    (hd : 0 < d) (hdt : ∀ dt : ℚ, Act.tick dt ∈ acts → 0 ≤ dt) :
    (∀ c : BezierCurve, ∀ x : ℚ, (c.tick x).1.t = clamp (c.t + x / c.duration) 0 1)
  ∧ (0 ≤ ((BezierCurve.new d ps).run acts).1.t
    ∧ ((BezierCurve.new d ps).run acts).1.t ≤ 1)
  ∧ (∀ c : BezierCurve, c.connection = false → c.play.t = 0) := by
  refine ⟨tick_fst_t, ?_, play_t_of_idle⟩
  exact run_t_bounds acts (BezierCurve.new d ps) (le_refl 0) zero_le_one

/-- Witness for C6: duration 1, a `play()` followed by a half-second tick,
with both hypotheses discharged concretely. -/
theorem t_bounded_and_reset_witness :
    (0 : ℚ) < 1
  ∧ (∀ dt : ℚ, Act.tick dt ∈ [Act.play, Act.tick (1 / 2)] → 0 ≤ dt)
  ∧ (0 ≤ ((BezierCurve.new 1 demoPositions).run [Act.play, Act.tick (1 / 2)]).1.t
    ∧ ((BezierCurve.new 1 demoPositions).run [Act.play, Act.tick (1 / 2)]).1.t ≤ 1) :=
  have h1 : (0 : ℚ) < 1 := by norm_num
  have h2 : ∀ dt : ℚ, Act.tick dt ∈ [Act.play, Act.tick (1 / 2)] → 0 ≤ dt := by
    intro dt h
    rcases List.mem_cons.mp h with h | h
    · exact absurd h (by simp)
    · rcases List.mem_cons.mp h with h | h
      · rw [Act.tick.injEq] at h
        rw [h]
        norm_num
      · exact absurd h (List.not_mem_nil _)
  ⟨h1, h2,
    (t_bounded_and_reset 1 demoPositions [Act.play, Act.tick (1 / 2)] h1 h2).2.1⟩

/-- Claim C7: calling `play()` while a subscription exists changes nothing
at all — the state, every field included, is returned as it was. -/
theorem play_while_running_is_noop (c : BezierCurve) (hc : c.connection = true) :
    c.play = c := by
  simp [BezierCurve.play, hc]

/-- Witness for C7: a freshly played animator is running, and a second
`play()` leaves it exactly as it was. -/
theorem play_while_running_is_noop_witness :
    ((BezierCurve.new 1 demoPositions).play.connection = true)
  ∧ (BezierCurve.new 1 demoPositions).play.play
      = (BezierCurve.new 1 demoPositions).play :=
  ⟨rfl, play_while_running_is_noop (BezierCurve.new 1 demoPositions).play rfl⟩

/-- Claim C8: `stop()` sets the latch and changes no other field (no
unsubscribe, no change to `t` or `position`); termination then happens on
the next tick that observes the latch, and that terminating tick still
computes and assigns `position` at its advanced `t` before the latch is
checked — its `position` is exactly what the same tick computes with the
latch clear. -/
theorem stop_sets_only_latch (c : BezierCurve) (dt : ℚ) :
    c.stop.wantToStop = true
  ∧ c.stop.t = c.t ∧ c.stop.position = c.position ∧ c.stop.connection = c.connection
  ∧ c.stop.p0 = c.p0 ∧ c.stop.p1 = c.p1 ∧ c.stop.p2 = c.p2 ∧ c.stop.p3 = c.p3
  ∧ c.stop.duration = c.duration
  ∧ (c.wantToStop = true →
        (c.tick dt).2 = [Eff.disconnect, Eff.invoke false]
      ∧ (c.tick dt).1.t = tickT c dt
      ∧ (c.tick dt).1.position
          = (({ c with wantToStop := false }).tick dt).1.position) := by
  refine ⟨rfl, rfl, rfl, rfl, rfl, rfl, rfl, rfl, rfl, fun hw => ⟨?_, ?_, ?_⟩⟩
  · simpa [hw] using (tick_end_case c dt (Or.inr hw)).2
  · exact (tick_fst_t c dt).trans rfl
  · rw [tick_fst_position, tick_fst_position, updatePosition_position,
      updatePosition_position]
    rfl

/-- Claim C9: an animator whose `p3` is present but `p2` absent still runs
normally apart from `position`: `t` advances by the clamped formula each
tick, the run still ends (disconnect, then callback with the usual value)
when `t` reaches 1 or a stop was requested, and `position` is never
written during any trace. -/
theorem degenerate_shape_still_animates (c : BezierCurve) (dt : ℚ)
    (h2 : c.p2 = none) (h3 : c.p3.isSome = true) :
    (c.tick dt).1.t = clamp (c.t + dt / c.duration) 0 1
  ∧ (c.tick dt).1.position = c.position
  ∧ ((1 ≤ tickT c dt ∨ c.wantToStop = true) →
        (c.tick dt).1.connection = false
      ∧ (c.tick dt).2 = [Eff.disconnect, Eff.invoke (!c.wantToStop)])
  ∧ (∀ acts : List Act, ((c.run acts).1).position = c.position) := by
  obtain ⟨q3, hq3⟩ := Option.isSome_iff_exists.mp h3
  refine ⟨tick_fst_t c dt, ?_, fun h => tick_end_case c dt h,
    fun acts => run_degenerate_position acts c h2 h3⟩
  rw [tick_fst_position, updatePosition_position]
  simp [h2, hq3]

/-- Witness for C9: a `p3`-only animator, whose first quarter-second tick
leaves `position` untouched. -/
theorem degenerate_shape_still_animates_witness :
    ((BezierCurve.new 1 degeneratePositions).p2 = none)
  ∧ ((BezierCurve.new 1 degeneratePositions).p3.isSome = true)
  ∧ (((BezierCurve.new 1 degeneratePositions).tick (1 / 4)).1.position
      = (BezierCurve.new 1 degeneratePositions).position) :=
  ⟨rfl, rfl,
    (degenerate_shape_still_animates (BezierCurve.new 1 degeneratePositions) (1 / 4)
        rfl rfl).2.1⟩

/-- Claim C10: `play()` never writes `position` — it is preserved through
any `play()` call — and construction initialises it to `p0`, so replay
does not snap the position back at `play()` time. -/
theorem play_never_writes_position (c : BezierCurve) (d : ℚ) (ps : BezierPositions) :
    c.play.position = c.position ∧ (BezierCurve.new d ps).position = ps.p0 :=
  ⟨play_position c, rfl⟩

end BezierTS
